import Mathlib

/-!
Verification of the home-milk-calculator web application.

This development shallowly embeds the data model and the request handlers of
the Flask application (`app.py`, `views/helpers.py`, `utils/jwt_auth.py`,
`models/models.py`) and proves the specification's testable properties about
them.

Modelling conventions:
* Python `str` values are embedded as `List Char` (`Str`); Python float
  fields (`milk_qty`, `cost`, `milk_price_per_litre`) are embedded as exact
  rationals `ℚ` — the routes only ever assign products and compare/sum
  values, so the algebra is what the properties are about.
* Nullable numeric columns are modelled by their numeric value, with SQL
  NULL collapsed to `0` where the code guards with `or 0.0`.
* `datetime.strptime`/`strftime` round trips through a structured
  `Date` record; zero-padded decimal rendering (`%d`, `%m`, `%Y`) is defined
  explicitly below, mirroring the C library formatting the code calls.
* HTTP handlers become pure functions `state → inputs → state × result`;
  uncommitted sessions discarded on an early `return` leave the state
  unchanged, exactly as Flask-SQLAlchemy's teardown rollback does.
-/

namespace MilkCalc

/-- Python strings are finite sequences of characters. -/
abbrev Str := List Char

/-- Decimal digit characters, as produced by C `printf`-style formatting. -/
def digitChar : Nat → Char
  | 0 => '0' | 1 => '1' | 2 => '2' | 3 => '3' | 4 => '4'
  | 5 => '5' | 6 => '6' | 7 => '7' | 8 => '8' | 9 => '9'
  | _ => '?'

/-- Decimal digits of `n`, most significant first, via an explicit fuel
argument (`n+1` steps always suffice). -/
def natDigitsAux : Nat → Nat → List Char
  | 0, _ => []
  | fuel + 1, n =>
    if n < 10 then [digitChar n]
    else natDigitsAux fuel (n / 10) ++ [digitChar (n % 10)]

/-- Decimal rendering of a natural number. -/
def natDigits (n : Nat) : Str := natDigitsAux (n + 1) n

/-- Zero-pad a decimal rendering on the left to width `w`
(`strftime` field widths: 2 for `%d`/`%m`, 4 for `%Y`). -/
def padDigits (w n : Nat) : Str :=
  List.replicate (w - (natDigits n).length) '0' ++ natDigits n

/-- A calendar date as `datetime.strptime(_, "%Y-%m-%d")` yields it. -/
structure Date where
  day : Nat
  month : Nat
  year : Nat
deriving DecidableEq, Repr

/-- `parsed.strftime("%d-%m-%Y")` — the persisted/display date format. -/
def formatDDMMYYYY (d : Date) : Str :=
  padDigits 2 d.day ++ '-' :: (padDigits 2 d.month ++ '-' :: padDigits 4 d.year)

/-- `parsed.strftime("%m-%Y")` — the monthly grouping key. -/
def formatMMYYYY (d : Date) : Str :=
  padDigits 2 d.month ++ '-' :: padDigits 4 d.year

/-- Python `date_str.split('-')` for the single-character separator `'-'`:
splits at every hyphen, keeping empty parts, and yields one part on a
hyphen-free input. -/
def splitHyphen : Str → List Str
  | [] => [[]]
  | c :: rest =>
    match splitHyphen rest with
    | [] => [[]]
    | p :: ps => if c = '-' then [] :: p :: ps else (c :: p) :: ps

/-- `get_month_year` from `app.py` / `views/helpers.py`: on a truthy
(nonempty) input, split on `'-'`; with exactly three parts return
`f"{parts[1]}-{parts[2]}"`, otherwise `None`. -/
def get_month_year (date_str : Str) : Option Str :=
  if date_str = [] then none
  else
    let parts := splitHyphen date_str
    if parts.length = 3 then
      some ((parts.getD 1 []) ++ '-' :: parts.getD 2 [])
    else none

/-! ### Facts about splitting and formatting -/

theorem splitHyphen_ne_nil (l : Str) : splitHyphen l ≠ [] := by
  cases l with
  | nil => simp [splitHyphen]
  | cons c rest =>
    simp only [splitHyphen]
    cases h : splitHyphen rest with
    | nil => simp
    | cons p ps =>
      by_cases hc : c = '-' <;> simp [hc]

/-- The number of split parts is one more than the number of hyphens. -/
theorem splitHyphen_length (l : Str) :
    (splitHyphen l).length = l.count '-' + 1 := by
  induction l with
  | nil => simp [splitHyphen]
  | cons c rest ih =>
    simp only [splitHyphen]
    cases h : splitHyphen rest with
    | nil => exact absurd h (splitHyphen_ne_nil rest)
    | cons p ps =>
      rw [h] at ih
      simp only [List.length_cons] at ih
      by_cases hc : c = '-'
      · subst hc
        simp [List.count_cons_self]
        omega
      · simp only [if_neg hc, List.length_cons,
          List.count_cons_of_ne (show '-' ≠ c from fun he => hc he.symm)]
        omega

/-- A hyphen-free string splits into a single part, itself. -/
theorem splitHyphen_of_not_mem (l : Str) (h : '-' ∉ l) : splitHyphen l = [l] := by
  induction l with
  | nil => simp [splitHyphen]
  | cons c rest ih =>
    simp only [List.mem_cons, not_or] at h
    simp only [splitHyphen, ih h.2,
      if_neg (show ¬ (c = '-') from fun hc => h.1 hc.symm)]

/-- Splitting peels off a leading hyphen-free segment. -/
theorem splitHyphen_append (a rest : Str) (h : '-' ∉ a) :
    splitHyphen (a ++ '-' :: rest) = a :: splitHyphen rest := by
  induction a with
  | nil =>
    simp only [List.nil_append, splitHyphen]
    cases hr : splitHyphen rest with
    | nil => exact absurd hr (splitHyphen_ne_nil rest)
    | cons p ps => simp
  | cons c a' ih =>
    simp only [List.mem_cons, not_or] at h
    have hs : splitHyphen (a'.append ('-' :: rest)) = a' :: splitHyphen rest :=
      ih h.2
    simp only [List.cons_append, splitHyphen]
    rw [hs]
    simp [show ¬ (c = '-') from fun hc => h.1 hc.symm]

theorem digitChar_ne_hyphen (n : Nat) : digitChar n ≠ '-' := by
  unfold digitChar
  split <;> decide

theorem natDigitsAux_no_hyphen (fuel n : Nat) : '-' ∉ natDigitsAux fuel n := by
  induction fuel generalizing n with
  | zero => simp [natDigitsAux]
  | succ fuel ih =>
    simp only [natDigitsAux]
    by_cases h : n < 10
    · simp [h, eq_comm]
      exact fun hc => digitChar_ne_hyphen n hc.symm
    · simp only [if_neg h, List.mem_append, List.mem_singleton, not_or]
      exact ⟨fun hm => ih (n / 10) hm,
        fun hc => digitChar_ne_hyphen (n % 10) hc.symm⟩

theorem padDigits_no_hyphen (w n : Nat) : '-' ∉ padDigits w n := by
  simp only [padDigits, List.mem_append, not_or]
  refine ⟨fun hm => ?_, natDigitsAux_no_hyphen _ _⟩
  have := List.eq_of_mem_replicate hm
  exact absurd this (by decide)

/-- Date formatting and month-year extraction are coherent: extracting the
month-year from a `%d-%m-%Y`-formatted date yields exactly the `%m-%Y`
rendering of that date. -/
theorem get_month_year_format (d : Date) :
    get_month_year (formatDDMMYYYY d) = some (formatMMYYYY d) := by
  have hsplit : splitHyphen (formatDDMMYYYY d) =
      [padDigits 2 d.day, padDigits 2 d.month, padDigits 4 d.year] := by
    rw [formatDDMMYYYY, splitHyphen_append _ _ (padDigits_no_hyphen 2 d.day),
      splitHyphen_append _ _ (padDigits_no_hyphen 2 d.month),
      splitHyphen_of_not_mem _ (padDigits_no_hyphen 4 d.year)]
  have hne : formatDDMMYYYY d ≠ [] := by
    rw [formatDDMMYYYY]
    cases padDigits 2 d.day <;> simp
  rw [get_month_year, if_neg hne, hsplit]
  simp [formatMMYYYY]

/-! ### Signed tokens

`itsdangerous.URLSafeTimedSerializer` and `jwt.encode`/`jwt.decode` are
third-party cryptographic primitives; they are embedded with an idealized
message-authentication code: a signature is the tuple of everything the real
HMAC-SHA256 is computed over, so signature equality coincides with having
been produced under the same key over the same payload.  Times are seconds
as natural numbers. -/

/-- The salt `'email-verification'` fixed by `generate_verification_token`
and `verify_token`. -/
def emailVerificationSalt : Str := "email-verification".toList

/-- A token produced by `URLSafeTimedSerializer.dumps`: the signed payload,
the embedded signing timestamp, and the signature over
(secret key, salt, payload, timestamp). -/
structure VToken where
  payload : Str
  ts : Nat
  sig : Str × Str × Str × Nat
deriving DecidableEq, Repr

/-- `generate_verification_token(email)` (`app.py`, and `views/helpers.py`
with the key passed explicitly): serialize `email` with salt
`'email-verification'` under the process secret key at time `now`. -/
def generate_verification_token (key : Str) (email : Str) (now : Nat) : VToken :=
  ⟨email, now, (key, emailVerificationSalt, email, now)⟩

/-- `verify_token(token, expiration=3600)`: `serializer.loads` succeeds and
returns the payload exactly when the signature matches this key, salt and
payload and the token's age `now - ts` is within `expiration`; any
exception is collapsed to `None`. -/
def verify_token (key : Str) (tok : VToken) (now : Nat)
    (expiration : Nat := 3600) : Option Str :=
  if tok.sig = (key, emailVerificationSalt, tok.payload, tok.ts)
      ∧ now - tok.ts ≤ expiration then
    some tok.payload
  else none

/-- A decoded JWT payload as built by `generate_access_token` /
`generate_refresh_token` (`utils/jwt_auth.py`). -/
structure JwtPayload where
  user_id : Nat
  email : Str
  iat : Nat
  exp : Nat
  typ : Str
deriving DecidableEq, Repr

/-- A JWT: the claimed payload plus the idealized HMAC-SHA256 signature
over (secret key, signed payload). -/
structure JwtToken where
  payload : JwtPayload
  sig : Str × JwtPayload
deriving DecidableEq, Repr

/-- `jwt.encode(payload, key, algorithm='HS256')`. -/
def jwt_encode (key : Str) (p : JwtPayload) : JwtToken := ⟨p, (key, p)⟩

/-- `generate_access_token(user_id, email)`: `type='access'`,
`exp = iat + 24h`. -/
def generate_access_token (key : Str) (uid : Nat) (email : Str) (now : Nat) :
    JwtToken :=
  jwt_encode key ⟨uid, email, now, now + 24 * 3600, "access".toList⟩

/-- `generate_refresh_token(user_id, email)`: `type='refresh'`,
`exp = iat + 30 days`. -/
def generate_refresh_token (key : Str) (uid : Nat) (email : Str) (now : Nat) :
    JwtToken :=
  jwt_encode key ⟨uid, email, now, now + 30 * 86400, "refresh".toList⟩

/-- `decode_token(token)`: verify signature and expiry, returning the
payload; `ExpiredSignatureError` (`exp ≤ now`) and `InvalidTokenError`
both collapse to `None`. -/
def decode_token (key : Str) (now : Nat) (tok : JwtToken) : Option JwtPayload :=
  if tok.sig = (key, tok.payload) ∧ now < tok.payload.exp then
    some tok.payload
  else none

/-! ### Data model

`User` and `Milk` rows (`app.py` models plus the `refresh_token` column of
`models/models.py`, which the token routes read and write).  Columns that no
verified route reads (`password_hash`, `oauth_provider`, `oauth_id`,
`email_verified`, `created_at`) are omitted. -/

structure User where
  id : Nat
  email : Str
  milk_price_per_litre : ℚ
  currency : Str
  currency_symbol : Str
  refresh_token : Option JwtToken
deriving DecidableEq, Repr

structure Milk where
  id : Nat
  date : Str
  milk_qty : ℚ
  cost : ℚ
  month_year : Str
  user_id : Nat
deriving DecidableEq, Repr

/-- The persisted database: all user rows, all milk rows, and the next
primary key the milk identity column will assign. -/
structure AppState where
  users : List User
  milks : List Milk
  nextMilkId : Nat
deriving DecidableEq, Repr

/-- `db.session.get(User, user_id)` — primary-key lookup. -/
def getUser (st : AppState) (uid : Nat) : Option User :=
  st.users.find? (fun u => u.id == uid)

/-- `db.select(Milk).filter_by(id=.., user_id=..)` followed by
`scalar_one_or_none()` — the ownership-checked record lookup used by the
edit/delete/update routes. -/
def findMilk (st : AppState) (rid uid : Nat) : Option Milk :=
  st.milks.find? (fun m => m.id == rid && m.user_id == uid)

/-- `db.select(Milk).filter_by(user_id=..)` — all of one user's rows. -/
def milksOfUser (st : AppState) (uid : Nat) : List Milk :=
  st.milks.filter (fun m => m.user_id == uid)

/-- Apply `f` to the user row with primary key `uid` (attribute assignment
followed by `db.session.commit()`). -/
def updateUser (st : AppState) (uid : Nat) (f : User → User) : AppState :=
  { st with users := st.users.map (fun u => if u.id = uid then f u else u) }

/-- Milk ids are a primary key: pairwise distinct. -/
def UniqueMilkIds (st : AppState) : Prop :=
  st.milks.Pairwise (fun a b => a.id ≠ b.id)

/-! ### Request inputs

Parsing of request fields happens at the Python boundary
(`float(..)`, `datetime.strptime(.., "%Y-%m-%d")`); handlers receive the
outcome of that parse, so the embedding passes the outcome in:
`none` = the parse raised, `some v` = it yielded `v`.  A submitted date
field is `Option (Option Date)`: absent, present-but-unparsable, or parsed. -/

/-- The `date` form/JSON field: absent (falsy), present but failing
`strptime`, or parsing to a calendar date. -/
inductive DateField where
  | absent
  | invalid
  | valid (d : Date)
deriving DecidableEq, Repr

/-- Each add route uses the parsed date when one parses and falls back to
`datetime.now()` otherwise. -/
def resolvedDate (df : DateField) (now : Date) : Date :=
  match df with
  | .valid d => d
  | _ => now

/-- JSON value bound to `milk_qty` in an API add body. `str` carries the
outcome `float(s)` would produce, since the numeric-string grammar is a
Python builtin; a missing field or a null/absent body is `absent`. -/
inductive QtyField where
  | absent
  | null
  | num (q : ℚ)
  | str (s : Str) (asFloat : Option ℚ)
deriving DecidableEq, Repr

/-- Python truthiness of the bound value (`not data.get('milk_qty')`):
`0`, `''`, `None` and absence are all falsy. -/
def QtyField.truthy : QtyField → Bool
  | .absent => false
  | .null => false
  | .num q => q != 0
  | .str s _ => !s.isEmpty

/-- `float(value)` on the bound JSON value: numbers convert to themselves,
strings as Python's float grammar dictates, `None` raises `TypeError`. -/
def QtyField.toFloat : QtyField → Option ℚ
  | .absent => none
  | .null => none
  | .num q => some q
  | .str _ f => f

/-! ### Page routes -/

/-- SQLAlchemy `scalar_one_or_none()`: `none` when no row matches, the row
when exactly one does, and the `MultipleResultsFound` exception when
several do (reachable for the (user, date) filter because the edit flows
rewrite dates without re-checking uniqueness). -/
def scalar_one_or_none (p : Milk → Bool) (rows : List Milk) :
    Except Unit (Option Milk) :=
  match rows.filter p with
  | [] => Except.ok none
  | [m] => Except.ok (some m)
  | _ => Except.error ()

/-- Outcome of the page `/add` POST (`app.py` `add`); `multipleResults` is
the uncaught `MultipleResultsFound` from the duplicate lookup, surfacing as
an HTTP 500 with the session rolled back. -/
inductive AddResult where
  | invalidQty
  | duplicate (date : Str)
  | multipleResults
  | added (r : Milk)
deriving DecidableEq, Repr

/-- `user.milk_price_per_litre if user else 50.0` — the price the page
routes use, falling back to the default when the session's user row is
gone. -/
def priceOf (st : AppState) (uid : Nat) : ℚ :=
  match getUser st uid with
  | some u => u.milk_price_per_litre
  | none => 50

/-- `/add` POST: look up the caller's price (default 50.0 if the session
user row is gone), parse the quantity (flash + redirect on failure), resolve
the date, reject a duplicate (user, date) pair, else insert the new row with
`cost = qty × price`. -/
def add_post (st : AppState) (uid : Nat) (qty : Option ℚ) (df : DateField)
    (now : Date) : AppState × AddResult :=
  let milk_price := priceOf st uid
  match qty with
  | none => (st, .invalidQty)
  | some milk_qty =>
    let cost := milk_qty * milk_price
    let d := resolvedDate df now
    let date_str := formatDDMMYYYY d
    let month_year_str := formatMMYYYY d
    match scalar_one_or_none (fun m => m.date == date_str && m.user_id == uid)
        st.milks with
    | .error _ => (st, .multipleResults)
    | .ok (some _) => (st, .duplicate date_str)
    | .ok none =>
      let newRec : Milk :=
        { id := st.nextMilkId, date := date_str, milk_qty := milk_qty,
          cost := cost, month_year := month_year_str, user_id := uid }
      ({ st with milks := st.milks ++ [newRec], nextMilkId := st.nextMilkId + 1 },
        .added newRec)

/-- Outcome of the page `/edit` POST. -/
inductive EditResult where
  | notFound
  | invalidQty
  | ok (r : Milk)
deriving DecidableEq, Repr

/-- `/edit` POST: ownership-checked lookup; a parsed new date rewrites
`date`/`month_year` (silently kept otherwise); an unparsable quantity
redirects home with the session uncommitted (state unchanged); otherwise
quantity and recomputed cost are written and committed. -/
def edit_post (st : AppState) (uid rid : Nat) (date : Option (Option Date))
    (qty : Option ℚ) : AppState × EditResult :=
  match findMilk st rid uid with
  | none => (st, .notFound)
  | some m0 =>
    let m1 :=
      match date with
      | some (some d) =>
        { m0 with date := formatDDMMYYYY d, month_year := formatMMYYYY d }
      | _ => m0
    match qty with
    | none => (st, .invalidQty)
    | some new_qty =>
      let milk_price := priceOf st uid
      let m2 := { m1 with milk_qty := new_qty, cost := new_qty * milk_price }
      ({ st with
          milks := st.milks.map
            (fun x => if x.id == rid && x.user_id == uid then m2 else x) },
        .ok m2)

/-- Outcome of the page `/delete` route. -/
inductive DeleteResult where
  | notFound
  | deleted
deriving DecidableEq, Repr

/-- `/delete`: ownership-checked lookup, then `db.session.delete` of that
row. -/
def delete_data (st : AppState) (uid rid : Nat) : AppState × DeleteResult :=
  match findMilk st rid uid with
  | none => (st, .notFound)
  | some _ =>
    ({ st with
        milks := st.milks.eraseP (fun m => m.id == rid && m.user_id == uid) },
      .deleted)

/-- Outcome of the page `/settings` POST. -/
inductive SettingsResult where
  | userNotFound
  | invalidPrice
  | priceNotPositive
  | savedRecalc (count : Nat)
  | saved
deriving DecidableEq, Repr

/-- The three attribute assignments of a settings save:
`user.milk_price_per_litre = new_price; user.currency = currency;
user.currency_symbol = currency_symbol`. -/
def settingsUpdate (new_price : ℚ) (currency currency_symbol : Str) :
    User → User := fun u =>
  { u with milk_price_per_litre := new_price, currency := currency,
           currency_symbol := currency_symbol }

/-- `/settings` POST: parse the submitted price (`float`), reject a
non-positive one, save price/currency/symbol, and — when the caller opted
into recalculation and the price actually changed — rewrite `cost` for
every one of the caller's rows with the new price, reporting how many. -/
def settings_post (st : AppState) (uid : Nat) (milk_price : Option ℚ)
    (currency currency_symbol : Str) (recalculate : Bool) :
    AppState × SettingsResult :=
  match getUser st uid with
  | none => (st, .userNotFound)
  | some user =>
    match milk_price with
    | none => (st, .invalidPrice)
    | some new_price =>
      if new_price ≤ 0 then (st, .priceNotPositive)
      else
        let old_price := user.milk_price_per_litre
        let st1 := updateUser st uid
          (settingsUpdate new_price currency currency_symbol)
        if recalculate ∧ old_price ≠ new_price then
          ({ st1 with
              milks := st1.milks.map (fun m =>
                if m.user_id = uid then
                  { m with cost := m.milk_qty * new_price }
                else m) },
            .savedRecalc (milksOfUser st1 uid).length)
        else (st1, .saved)

/-! ### Monthly grouping and the home view -/

/-- Lexicographic `≤` on strings, the order the SQL backend uses for
`order_by(Milk.date...)` on a varchar column. -/
def strLe : Str → Str → Bool
  | [], _ => true
  | _ :: _, [] => false
  | a :: as, b :: bs => if a = b then strLe as bs else decide (a < b)

/-- Insert a row into an already ordered list (the sorting the database
performs for an `order_by`; which stable algorithm realizes it is
irrelevant to every property below, which only uses that the result is a
permutation of the input). -/
def insertLe (le : Milk → Milk → Bool) (a : Milk) : List Milk → List Milk
  | [] => [a]
  | b :: bs => if le a b then a :: b :: bs else b :: insertLe le a bs

/-- Sort rows by the given Boolean order. -/
def sortLe (le : Milk → Milk → Bool) (rows : List Milk) : List Milk :=
  rows.foldr (insertLe le) []

/-- `order_by(Milk.date.desc(), Milk.id.desc())` of the home view. -/
def sortDateDescIdDesc (rows : List Milk) : List Milk :=
  sortLe (fun a b =>
    if a.date = b.date then decide (b.id ≤ a.id) else strLe b.date a.date) rows

/-- `order_by(Milk.date.desc())` of the records API. -/
def sortDateDesc (rows : List Milk) : List Milk :=
  sortLe (fun a b => strLe b.date a.date) rows

/-- One step of the `defaultdict(list)` grouping loop: append `m` to the
group keyed by its `month_year`, creating the key on first sight (Python
dicts preserve insertion order). -/
def insertGrouped (gs : List (Str × List Milk)) (key : Str) (m : Milk) :
    List (Str × List Milk) :=
  match gs with
  | [] => [(key, [m])]
  | (k, ms) :: rest =>
    if k = key then (k, ms ++ [m]) :: rest
    else (k, ms) :: insertGrouped rest key m

/-- The grouping loop shared by the home view and the records API: rows with
a falsy (empty) `month_year` are skipped. -/
def groupByMonth (rows : List Milk) : List (Str × List Milk) :=
  rows.foldl
    (fun gs m => if m.month_year.isEmpty then gs else insertGrouped gs m.month_year m)
    []

/-- Sum of `cost` over a list of rows (`sum(...)`); the home view's
`(r.cost or 0.0)` guard is the identity on the embedded rational value. -/
def costSum (rows : List Milk) : ℚ := (rows.map (fun m => m.cost)).sum

/-- The home view's `monthly_totals`: each grouped month paired with the sum
of its rows' costs. -/
def home_monthly_totals (st : AppState) (uid : Nat) : List (Str × ℚ) :=
  (groupByMonth (sortDateDescIdDesc (milksOfUser st uid))).map
    (fun g => (g.1, costSum g.2))

/-- The home view's overall `total_cost_all`: sum of cost over every one of
the caller's rows. -/
def home_total (st : AppState) (uid : Nat) : ℚ :=
  costSum (sortDateDescIdDesc (milksOfUser st uid))

/-! ### Token guard and token API routes -/

/-- Outcome of the `token_required` guard (`utils/jwt_auth.py`), from the
point where the bearer token (header or cookie) has been extracted. -/
inductive GuardResult where
  | missingToken
  | invalidToken
  | invalidType
  | userNotFound
  | ok (u : User)
deriving DecidableEq, Repr

/-- `token_required`: no token → 401 missing; decode failure → 401 invalid;
payload type not `'access'` → 401 invalid type; unknown user id → 401; else
attach the resolved user. -/
def token_required_check (key : Str) (now : Nat) (st : AppState)
    (tok : Option JwtToken) : GuardResult :=
  match tok with
  | none => .missingToken
  | some t =>
    match decode_token key now t with
    | none => .invalidToken
    | some payload =>
      if payload.typ = "access".toList then
        match getUser st payload.user_id with
        | none => .userNotFound
        | some u => .ok u
      else .invalidType

/-- A guarded route: the handler body runs only when the guard resolves a
user; every failure short-circuits with HTTP 401 and an untouched state. -/
def run_guarded (key : Str) (now : Nat) (st : AppState) (tok : Option JwtToken)
    (handler : User → AppState → AppState × Nat) : AppState × Nat :=
  match token_required_check key now st tok with
  | .ok u => handler u st
  | _ => (st, 401)

/-- Outcome of POST `/api/auth/refresh`. -/
inductive RefreshResult where
  | missingToken
  | invalid
  | ok (access : JwtToken)
deriving DecidableEq, Repr

/-- `api_refresh_token`: 400 without a body token; 401 unless the token
decodes with `type='refresh'`, its `user_id` resolves, and it equals the
refresh token stored on that user's row; otherwise a fresh access token. -/
def api_refresh_token (key : Str) (now : Nat) (st : AppState)
    (tok : Option JwtToken) : RefreshResult :=
  match tok with
  | none => .missingToken
  | some t =>
    match decode_token key now t with
    | none => .invalid
    | some payload =>
      if payload.typ = "refresh".toList then
        match getUser st payload.user_id with
        | none => .invalid
        | some user =>
          if user.refresh_token = some t then
            .ok (generate_access_token key user.id user.email now)
          else .invalid
      else .invalid

/-- HTTP status of a refresh outcome. -/
def RefreshResult.status : RefreshResult → Nat
  | .missingToken => 400
  | .invalid => 401
  | .ok _ => 200

/-! ### Milk CRUD API routes -/

/-- Outcome of POST `/api/milk/records` (`api_add_milk_record`);
`multipleResults` is the uncaught `MultipleResultsFound` from the duplicate
lookup, surfacing as an HTTP 500. -/
inductive ApiAddResult where
  | noUser
  | qtyRequired
  | invalidQty
  | conflict (date : Str)
  | multipleResults
  | added (r : Milk)
deriving DecidableEq, Repr

/-- HTTP status of an API add outcome (`noUser` is the guard's 401). -/
def ApiAddResult.status : ApiAddResult → Nat
  | .noUser => 401
  | .qtyRequired => 400
  | .invalidQty => 400
  | .conflict _ => 409
  | .multipleResults => 500
  | .added _ => 201

/-- JSON `message` of an API add outcome (a 500 carries the framework's
default error page, not a route-written message). -/
def ApiAddResult.message : ApiAddResult → Str
  | .noUser => "User not found".toList
  | .qtyRequired => "Milk quantity required".toList
  | .invalidQty => "Invalid milk quantity".toList
  | .conflict _ => "already exists".toList
  | .multipleResults => "Internal Server Error".toList
  | .added _ => "Record added successfully".toList

/-- `api_add_milk_record`: `if not data or not data.get('milk_qty')` → 400
"Milk quantity required" (a falsy bound value — `0`, `''`, `None`, absent —
takes this branch); a failing `float` → 400; then the same date resolution
and duplicate check as the page route, and `cost = qty × price`. -/
def api_add_milk_record (st : AppState) (uid : Nat) (qty : QtyField)
    (df : DateField) (now : Date) : AppState × ApiAddResult :=
  match getUser st uid with
  | none => (st, .noUser)
  | some user =>
    if ¬ qty.truthy then (st, .qtyRequired)
    else
      match qty.toFloat with
      | none => (st, .invalidQty)
      | some milk_qty =>
        let cost := milk_qty * user.milk_price_per_litre
        let d := resolvedDate df now
        let date_str := formatDDMMYYYY d
        let month_year_str := formatMMYYYY d
        match scalar_one_or_none
            (fun m => m.date == date_str && m.user_id == uid) st.milks with
        | .error _ => (st, .multipleResults)
        | .ok (some _) => (st, .conflict date_str)
        | .ok none =>
          let newRec : Milk :=
            { id := st.nextMilkId, date := date_str, milk_qty := milk_qty,
              cost := cost, month_year := month_year_str, user_id := uid }
          ({ st with milks := st.milks ++ [newRec], nextMilkId := st.nextMilkId + 1 },
            .added newRec)

/-- One record dictionary of the GET `/api/milk/records` response. -/
structure RecordView where
  id : Nat
  date : Str
  milk_qty : ℚ
  cost : ℚ
deriving DecidableEq, Repr

def Milk.toView (m : Milk) : RecordView :=
  ⟨m.id, m.date, m.milk_qty, m.cost⟩

/-- The GET `/api/milk/records` response body (`api_get_milk_records`):
the caller's rows ordered by date descending, grouped by `month_year`, with
per-month cost totals and the total record count. -/
structure RecordsResponse where
  monthly_data : List (Str × List RecordView)
  monthly_totals : List (Str × ℚ)
  total_records : Nat
deriving DecidableEq, Repr

def api_get_milk_records (st : AppState) (uid : Nat) : RecordsResponse :=
  let milk_data := sortDateDesc (milksOfUser st uid)
  let groups := groupByMonth milk_data
  { monthly_data := groups.map (fun g => (g.1, g.2.map Milk.toView)),
    monthly_totals := groups.map (fun g => (g.1, costSum g.2)),
    total_records := milk_data.length }

/-- Outcome of PUT `/api/milk/records/<id>` (`api_update_milk_record`). -/
inductive ApiUpdateResult where
  | noUser
  | notFound
  | invalidQty
  | ok (r : Milk)
deriving DecidableEq, Repr

def ApiUpdateResult.status : ApiUpdateResult → Nat
  | .noUser => 401
  | .notFound => 404
  | .invalidQty => 400
  | .ok _ => 200

/-- `api_update_milk_record`: 404 unless the record exists and belongs to
the caller; a present `milk_qty` rewrites quantity and recomputed cost (400
if it fails `float`, nothing committed); a present, parseable `date`
rewrites `date`/`month_year` (silently ignored otherwise). -/
def api_update_milk_record (st : AppState) (uid rid : Nat)
    (qty : Option (Option ℚ)) (date : Option (Option Date)) :
    AppState × ApiUpdateResult :=
  match getUser st uid with
  | none => (st, .noUser)
  | some user =>
    match findMilk st rid uid with
    | none => (st, .notFound)
    | some m0 =>
      match qty with
      | some none => (st, .invalidQty)
      | _ =>
        let m1 :=
          match qty with
          | some (some q) =>
            { m0 with milk_qty := q, cost := q * user.milk_price_per_litre }
          | _ => m0
        let m2 :=
          match date with
          | some (some d) =>
            { m1 with date := formatDDMMYYYY d, month_year := formatMMYYYY d }
          | _ => m1
        ({ st with
            milks := st.milks.map
              (fun x => if x.id == rid && x.user_id == uid then m2 else x) },
          .ok m2)

/-- Outcome of DELETE `/api/milk/records/<id>`. -/
inductive ApiDeleteResult where
  | noUser
  | notFound
  | deleted
deriving DecidableEq, Repr

def ApiDeleteResult.status : ApiDeleteResult → Nat
  | .noUser => 401
  | .notFound => 404
  | .deleted => 200

/-- `api_delete_milk_record`: 404 unless owned by the caller, else delete. -/
def api_delete_milk_record (st : AppState) (uid rid : Nat) :
    AppState × ApiDeleteResult :=
  match getUser st uid with
  | none => (st, .noUser)
  | some _ =>
    match findMilk st rid uid with
    | none => (st, .notFound)
    | some _ =>
      ({ st with
          milks := st.milks.eraseP (fun m => m.id == rid && m.user_id == uid) },
        .deleted)

/-- Outcome of PUT `/api/settings` (`api_user_settings`). -/
inductive ApiSettingsResult where
  | noUser
  | invalidPrice
  | priceNotPositive
  | ok
deriving DecidableEq, Repr

/-- `api_user_settings` PUT: an offered `milk_price_per_litre` must parse
and be positive (else 400, nothing committed); any supplied subset of the
three settings is applied.  This endpoint never touches Milk rows. -/
def api_user_settings_put (st : AppState) (uid : Nat)
    (price : Option (Option ℚ)) (currency : Option Str)
    (currency_symbol : Option Str) : AppState × ApiSettingsResult :=
  match getUser st uid with
  | none => (st, .noUser)
  | some _ =>
    let applyRest (st0 : AppState) : AppState :=
      let st1 :=
        match currency with
        | some c => updateUser st0 uid (fun u => { u with currency := c })
        | none => st0
      match currency_symbol with
      | some s => updateUser st1 uid (fun u => { u with currency_symbol := s })
      | none => st1
    match price with
    | some none => (st, .invalidPrice)
    | some (some p) =>
      if p ≤ 0 then (st, .priceNotPositive)
      else
        (applyRest (updateUser st uid
          (fun u => { u with milk_price_per_litre := p })), .ok)
    | none => (applyRest st, .ok)

end MilkCalc

namespace MilkCalc

/-! ### Helper lemmas -/

/-- A primary-key lookup that succeeds returns a row with that key. -/
theorem getUser_id {st : AppState} {uid : Nat} {u : User}
    (h : getUser st uid = some u) : u.id = uid := by
  have := List.find?_some h
  simpa using this

/-- A primary-key lookup that succeeds returns a stored row. -/
theorem getUser_mem {st : AppState} {uid : Nat} {u : User}
    (h : getUser st uid = some u) : u ∈ st.users :=
  List.mem_of_find?_eq_some h

/-- An ownership-checked milk lookup that succeeds returns a stored row of
that id and owner. -/
theorem findMilk_spec {st : AppState} {rid uid : Nat} {m : Milk}
    (h : findMilk st rid uid = some m) :
    m ∈ st.milks ∧ m.id = rid ∧ m.user_id = uid := by
  refine ⟨List.mem_of_find?_eq_some h, ?_⟩
  have := List.find?_some h
  simpa using this

/-- Updating a user through an id-preserving edit commutes with lookup. -/
theorem getUser_updateUser (st : AppState) (uid : Nat) (f : User → User)
    (v : Nat) (hid : ∀ u, (f u).id = u.id) :
    getUser (updateUser st uid f) v =
      Option.map (fun u => if u.id = uid then f u else u) (getUser st v) := by
  unfold getUser updateUser
  simp only [List.find?_map]
  have hpred : (fun u : User => (if u.id = uid then f u else u).id == v) =
      (fun u : User => u.id == v) := by
    funext u
    by_cases h : u.id = uid <;> simp [h, hid]
  rw [show ((fun u : User => u.id == v) ∘ fun u => if u.id = uid then f u else u) =
      (fun u : User => (if u.id = uid then f u else u).id == v) from rfl, hpred]

/-- `updateUser` does not touch milk rows. -/
theorem updateUser_milks (st : AppState) (uid : Nat) (f : User → User) :
    (updateUser st uid f).milks = st.milks := rfl

/-- Distinct primary keys make the id an injective key on stored rows. -/
theorem pairwise_ids_inj {l : List Milk}
    (hw : l.Pairwise (fun a b => a.id ≠ b.id)) {x y : Milk}
    (hx : x ∈ l) (hy : y ∈ l) (he : x.id = y.id) : x = y := by
  induction hw with
  | nil => cases hx
  | cons ha _ ih =>
    rcases List.mem_cons.mp hx with hx1 | hx1 <;>
      rcases List.mem_cons.mp hy with hy1 | hy1
    · rw [hx1, hy1]
    · exact absurd he (hx1 ▸ ha y hy1)
    · exact absurd he.symm (hy1 ▸ ha x hx1)
    · exact ih hx1 hy1

theorem uniqueMilkIds_inj {st : AppState} (hw : UniqueMilkIds st)
    {x y : Milk} (hx : x ∈ st.milks) (hy : y ∈ st.milks)
    (he : x.id = y.id) : x = y :=
  pairwise_ids_inj hw hx hy he

/-- Inserting into an ordered list permutes consing. -/
theorem insertLe_perm (le : Milk → Milk → Bool) (a : Milk) (l : List Milk) :
    (insertLe le a l).Perm (a :: l) := by
  induction l with
  | nil => simp [insertLe]
  | cons b bs ih =>
    simp only [insertLe]
    by_cases h : le a b = true
    · simp [h]
    · simp only [if_neg h]
      exact (ih.cons b).trans (List.Perm.swap a b bs)

/-- Sorting permutes. -/
theorem sortLe_perm (le : Milk → Milk → Bool) (l : List Milk) :
    (sortLe le l).Perm l := by
  induction l with
  | nil => simp [sortLe]
  | cons a l ih =>
    exact (insertLe_perm le a (sortLe le l)).trans (ih.cons a)

/-- All rows collected in a grouping accumulator, in order. -/
def groupedRows (gs : List (Str × List Milk)) : List Milk :=
  (gs.map Prod.snd).flatten

/-- Appending a row to its group adds exactly that row. -/
theorem insertGrouped_perm (gs : List (Str × List Milk)) (k : Str) (m : Milk) :
    (groupedRows (insertGrouped gs k m)).Perm (groupedRows gs ++ [m]) := by
  induction gs with
  | nil => simp [insertGrouped, groupedRows]
  | cons g rest ih =>
    obtain ⟨k', ms⟩ := g
    simp only [insertGrouped]
    by_cases h : k' = k
    · simp only [if_pos h, groupedRows, List.map_cons, List.flatten_cons]
      rw [List.append_assoc, List.append_assoc]
      exact List.perm_append_comm.append_left ms
    · simp only [if_neg h, groupedRows, List.map_cons, List.flatten_cons]
      rw [List.append_assoc]
      exact ih.append_left ms

/-- The grouping loop collects exactly the rows with a truthy
(nonempty) `month_year`, up to permutation. -/
theorem groupByMonth_perm (rows : List Milk) :
    (groupedRows (groupByMonth rows)).Perm
      (rows.filter (fun m => !m.month_year.isEmpty)) := by
  suffices h : ∀ (rows : List Milk) (gs : List (Str × List Milk)),
      (groupedRows (rows.foldl
        (fun gs m => if m.month_year.isEmpty then gs
          else insertGrouped gs m.month_year m) gs)).Perm
        (groupedRows gs ++ rows.filter (fun m => !m.month_year.isEmpty)) by
    have := h rows []
    simpa [groupedRows, groupByMonth] using this
  intro rows
  induction rows with
  | nil => intro gs; simp [groupedRows]
  | cons m rest ih =>
    intro gs
    simp only [List.foldl_cons]
    by_cases hm : m.month_year.isEmpty
    · simpa [hm] using ih gs
    · simp only [if_neg hm]
      refine (ih (insertGrouped gs m.month_year m)).trans ?_
      refine ((insertGrouped_perm gs m.month_year m).append_right _).trans ?_
      have hme : m.month_year.isEmpty = false := by
        simpa using hm
      rw [List.filter_cons]
      simp only [hme, Bool.not_false, if_pos]
      rw [List.append_assoc]
      exact List.Perm.refl _

/-- Summing costs of the filtered list loses nothing when every dropped
row has zero cost. -/
theorem costSum_filter (l : List Milk) (p : Milk → Bool)
    (h : ∀ m ∈ l, p m = false → m.cost = 0) :
    costSum (l.filter p) = costSum l := by
  induction l with
  | nil => rfl
  | cons m rest ih =>
    have ihr := ih (fun x hx hpx => h x (List.mem_cons_of_mem m hx) hpx)
    by_cases hm : p m = true
    · simp [costSum, List.filter_cons, hm] at ihr ⊢
      simpa [costSum] using ihr
    · have hz := h m (List.mem_cons_self m rest) (by simpa using hm)
      simp only [List.filter_cons, Bool.not_eq_true] at hm ⊢
      simp [hm, costSum, hz] at ihr ⊢
      simpa [costSum] using ihr

/-- Cost sums are permutation-invariant. -/
theorem costSum_perm {l₁ l₂ : List Milk} (h : l₁.Perm l₂) :
    costSum l₁ = costSum l₂ := by
  unfold costSum
  exact (h.map (fun m => m.cost)).sum_eq

/-! ### The claims -/

/-- Per-group cost totals add up to the cost of all grouped rows. -/
theorem sum_costSum_groups (gs : List (Str × List Milk)) :
    (gs.map (fun g => costSum g.2)).sum = costSum (groupedRows gs) := by
  induction gs with
  | nil => simp [groupedRows, costSum]
  | cons g rest ih =>
    simp only [List.map_cons, List.sum_cons, groupedRows, List.flatten_cons,
      costSum, List.map_append, List.sum_append] at ih ⊢
    rw [ih]

/-- C7 counterexample: a row whose `month_year` is empty is skipped by the
monthly grouping but still counted by the overall total, so on a state
holding such a row with nonzero cost the home view's monthly totals do not
add up to its overall total. -/
theorem c7_counterexample :
    ¬ (((home_monthly_totals
          ⟨[⟨7, "u".toList, 50, "INR".toList, "R".toList, none⟩],
           [⟨1, "01-02-2024".toList, 2, 5, [], 7⟩], 2⟩ 7).map Prod.snd).sum =
        home_total
          ⟨[⟨7, "u".toList, 50, "INR".toList, "R".toList, none⟩],
           [⟨1, "01-02-2024".toList, 2, 5, [], 7⟩], 2⟩ 7) := by
  norm_num [home_monthly_totals, home_total, milksOfUser, sortDateDescIdDesc,
    sortLe, insertLe, groupByMonth, insertGrouped, groupedRows, costSum]

/-- C7 (amended): for every user whose rows with an empty `month_year` all
have zero cost — in particular whenever every row's `month_year` is set, as
the application maintains for every row it writes — the sum over all months
of the home view's per-month totals equals its overall total. -/
theorem c7_monthly_totals_sum_to_overall (st : AppState) (uid : Nat)
    (h : ∀ m ∈ st.milks, m.user_id = uid → m.month_year = [] → m.cost = 0) :
    ((home_monthly_totals st uid).map Prod.snd).sum = home_total st uid := by
  unfold home_monthly_totals home_total
  rw [List.map_map]
  have hcomp : (Prod.snd ∘ fun g : Str × List Milk => (g.1, costSum g.2)) =
      fun g : Str × List Milk => costSum g.2 := rfl
  rw [hcomp, sum_costSum_groups,
    costSum_perm (groupByMonth_perm (sortDateDescIdDesc (milksOfUser st uid)))]
  apply costSum_filter
  intro x hx hpx
  have hxm : x ∈ milksOfUser st uid :=
    (sortLe_perm _ (milksOfUser st uid)).mem_iff.mp hx
  rw [milksOfUser, List.mem_filter] at hxm
  have hxmy : x.month_year = [] := by
    have : x.month_year.isEmpty = true := by
      cases he : x.month_year.isEmpty
      · rw [he] at hpx; cases hpx
      · rfl
    exact List.isEmpty_iff.mp this
  exact h x hxm.1 (by simpa using hxm.2) hxmy

/-- Witness for C7 (amended) on a state whose single row carries its
month-year key. -/
theorem c7_witness :
    ((home_monthly_totals
        ⟨[⟨7, "u".toList, 50, "INR".toList, "R".toList, none⟩],
         [⟨1, "01-02-2024".toList, 2, 100, "02-2024".toList, 7⟩], 2⟩
        7).map Prod.snd).sum =
      home_total
        ⟨[⟨7, "u".toList, 50, "INR".toList, "R".toList, none⟩],
         [⟨1, "01-02-2024".toList, 2, 100, "02-2024".toList, 7⟩], 2⟩ 7 :=
  c7_monthly_totals_sum_to_overall
    ⟨[⟨7, "u".toList, 50, "INR".toList, "R".toList, none⟩],
     [⟨1, "01-02-2024".toList, 2, 100, "02-2024".toList, 7⟩], 2⟩ 7
    (by decide)

/-- C8: `get_month_year` splits its input on `'-'` and, exactly when three
parts result (equivalently, the string contains exactly two hyphens),
returns the second and third parts joined with `'-'`; for every other input
(including the empty string) it returns absent.  In particular
`get_month_year("05-03-2024") = "03-2024"`. -/
theorem c8_get_month_year_exactly_two_hyphens :
    get_month_year ("05-03-2024".toList) = some ("03-2024".toList) ∧
    ∀ s : Str,
      (s.count '-' = 2 →
        get_month_year s =
          some ((splitHyphen s).getD 1 [] ++ '-' :: (splitHyphen s).getD 2 [])) ∧
      (s.count '-' ≠ 2 → get_month_year s = none) := by
  refine ⟨by decide, fun s => ⟨?_, ?_⟩⟩
  · intro h2
    have hne : s ≠ [] := by
      intro he
      rw [he] at h2
      simp at h2
    have hlen : (splitHyphen s).length = 3 := by
      rw [splitHyphen_length, h2]
    rw [get_month_year, if_neg hne]
    simp [hlen]
  · intro h2
    rw [get_month_year]
    by_cases hne : s = []
    · simp [hne]
    · rw [if_neg hne]
      have hlen : (splitHyphen s).length ≠ 3 := by
        rw [splitHyphen_length]
        omega
      simp [hlen]

/-- Witness for C8 at the concrete inputs `"a-b-c"` (two hyphens) and
`"2024"` (no hyphen). -/
theorem c8_witness :
    get_month_year ("a-b-c".toList) =
      some ((splitHyphen ("a-b-c".toList)).getD 1 [] ++
        '-' :: (splitHyphen ("a-b-c".toList)).getD 2 []) ∧
    get_month_year ("2024".toList) = none :=
  ⟨(c8_get_month_year_exactly_two_hyphens.2 ("a-b-c".toList)).1 (by decide),
   (c8_get_month_year_exactly_two_hyphens.2 ("2024".toList)).2 (by decide)⟩

/-- An ownership-checked lookup for a row id owned by someone else fails
when ids are a genuine primary key. -/
theorem findMilk_other_user_none {st : AppState} (hw : UniqueMilkIds st)
    {m : Milk} (hm : m ∈ st.milks) {a : Nat} (hma : m.user_id ≠ a) :
    findMilk st m.id a = none := by
  cases hf : findMilk st m.id a with
  | none => rfl
  | some x =>
    obtain ⟨hxmem, hxid, hxu⟩ := findMilk_spec hf
    have hxm : x = m := uniqueMilkIds_inj hw hxmem hm hxid
    rw [hxm] at hxu
    exact absurd hxu hma

/-- Every record view in the records-API response views a row of the
authenticated caller. -/
theorem api_get_views_own_rows (st : AppState) (a : Nat)
    {g : Str × List RecordView}
    (hg : g ∈ (api_get_milk_records st a).monthly_data)
    {rv : RecordView} (hrv : rv ∈ g.2) :
    ∃ x ∈ st.milks, x.user_id = a ∧ rv = x.toView := by
  rw [api_get_milk_records] at hg
  simp only [List.mem_map] at hg
  obtain ⟨⟨k, ms⟩, hgs, hgeq⟩ := hg
  rw [← hgeq] at hrv
  simp only [List.mem_map] at hrv
  obtain ⟨x, hx, hxv⟩ := hrv
  have hxg : x ∈ groupedRows (groupByMonth (sortDateDesc (milksOfUser st a))) := by
    unfold groupedRows
    exact List.mem_flatten.mpr ⟨ms, List.mem_map.mpr ⟨(k, ms), hgs, rfl⟩, hx⟩
  have hxf := (groupByMonth_perm (sortDateDesc (milksOfUser st a))).mem_iff.mp hxg
  have hxs : x ∈ sortDateDesc (milksOfUser st a) := List.mem_of_mem_filter hxf
  have hxu : x ∈ milksOfUser st a :=
    (sortLe_perm _ (milksOfUser st a)).mem_iff.mp hxs
  rw [milksOfUser, List.mem_filter] at hxu
  exact ⟨x, hxu.1, by simpa using hxu.2, hxv.symm⟩

/-- C4: for distinct users A and B and a row owned by B, a records-API GET
authenticated as A never includes that row, and a PUT or DELETE on its id
authenticated as A answers 404 with the whole state unchanged. -/
theorem c4_api_ownership_isolation (st : AppState) (a : Nat) (userA : User)
    (m : Milk) (hw : UniqueMilkIds st) (hua : getUser st a = some userA)
    (hm : m ∈ st.milks) (hmb : m.user_id ≠ a) :
    (∀ g ∈ (api_get_milk_records st a).monthly_data, ∀ rv ∈ g.2,
      rv.id ≠ m.id) ∧
    (∀ qty date, api_update_milk_record st a m.id qty date =
      (st, .notFound)) ∧
    api_delete_milk_record st a m.id = (st, .notFound) ∧
    ApiUpdateResult.status .notFound = 404 ∧
    ApiDeleteResult.status .notFound = 404 := by
  have hfind : findMilk st m.id a = none := findMilk_other_user_none hw hm hmb
  refine ⟨?_, ?_, ?_, rfl, rfl⟩
  · intro g hg rv hrv hid
    obtain ⟨x, hxmem, hxu, hxv⟩ := api_get_views_own_rows st a hg hrv
    have hxid : x.id = m.id := by
      rw [hxv] at hid
      exact hid
    have hxm : x = m := uniqueMilkIds_inj hw hxmem hm hxid
    rw [hxm] at hxu
    exact absurd hxu hmb
  · intro qty date
    rw [api_update_milk_record]
    simp only [hua, hfind]
  · rw [api_delete_milk_record]
    simp only [hua, hfind]

/-- Witness for C4: user 2's row with a guessable id is invisible and
untouchable for user 1. -/
theorem c4_witness :
    api_update_milk_record
      ⟨[⟨1, "a".toList, 50, "INR".toList, "R".toList, none⟩,
        ⟨2, "b".toList, 50, "INR".toList, "R".toList, none⟩],
       [⟨9, "01-02-2024".toList, 3, 150, "02-2024".toList, 2⟩], 10⟩ 1 9
      none none =
      (⟨[⟨1, "a".toList, 50, "INR".toList, "R".toList, none⟩,
        ⟨2, "b".toList, 50, "INR".toList, "R".toList, none⟩],
       [⟨9, "01-02-2024".toList, 3, 150, "02-2024".toList, 2⟩], 10⟩,
        .notFound) ∧
    api_delete_milk_record
      ⟨[⟨1, "a".toList, 50, "INR".toList, "R".toList, none⟩,
        ⟨2, "b".toList, 50, "INR".toList, "R".toList, none⟩],
       [⟨9, "01-02-2024".toList, 3, 150, "02-2024".toList, 2⟩], 10⟩ 1 9 =
      (⟨[⟨1, "a".toList, 50, "INR".toList, "R".toList, none⟩,
        ⟨2, "b".toList, 50, "INR".toList, "R".toList, none⟩],
       [⟨9, "01-02-2024".toList, 3, 150, "02-2024".toList, 2⟩], 10⟩,
        .notFound) := by
  have h := c4_api_ownership_isolation
    ⟨[⟨1, "a".toList, 50, "INR".toList, "R".toList, none⟩,
      ⟨2, "b".toList, 50, "INR".toList, "R".toList, none⟩],
     [⟨9, "01-02-2024".toList, 3, 150, "02-2024".toList, 2⟩], 10⟩ 1
    ⟨1, "a".toList, 50, "INR".toList, "R".toList, none⟩
    ⟨9, "01-02-2024".toList, 3, 150, "02-2024".toList, 2⟩
    (by simp [UniqueMilkIds]) (by rfl) (by simp) (by norm_num)
  exact ⟨h.2.1 none none, h.2.2.1⟩

/-- C5: a verification token generated for an email validates back to that
exact email within 3600 seconds of issuance; it validates to absent once
more than 3600 seconds have elapsed; and any token accepted under a key is
precisely the token issuance under that key would have produced for its
payload and timestamp, so a token whose signature or payload differs from
every issued one is rejected. -/
theorem c5_verification_token_round_trip :
    ∀ (key email : Str) (t0 t1 : Nat),
      (t1 - t0 ≤ 3600 →
        verify_token key (generate_verification_token key email t0) t1 =
          some email) ∧
      (t1 - t0 > 3600 →
        verify_token key (generate_verification_token key email t0) t1 =
          none) ∧
      (∀ (tok : VToken) (e : Str),
        verify_token key tok t1 = some e →
          e = tok.payload ∧ tok = generate_verification_token key e tok.ts ∧
            t1 - tok.ts ≤ 3600) ∧
      (∀ tok : VToken,
        tok.sig ≠ (key, emailVerificationSalt, tok.payload, tok.ts) →
          verify_token key tok t1 = none) := by
  intro key email t0 t1
  refine ⟨?_, ?_, ?_, ?_⟩
  · intro hage
    rw [verify_token, if_pos ⟨rfl, hage⟩]
    rfl
  · intro hage
    rw [verify_token, if_neg]
    intro hc
    have hts : t1 - (generate_verification_token key email t0).ts ≤ 3600 :=
      hc.2
    simp only [generate_verification_token] at hts
    omega
  · intro tok e hacc
    rw [verify_token] at hacc
    by_cases hc : tok.sig = (key, emailVerificationSalt, tok.payload, tok.ts)
        ∧ t1 - tok.ts ≤ 3600
    · rw [if_pos hc] at hacc
      obtain ⟨hsig, hage⟩ := hc
      have he : e = tok.payload := (Option.some_inj.mp hacc).symm
      refine ⟨he, ?_, hage⟩
      obtain ⟨p, ts, sg⟩ := tok
      simp only at hsig he ⊢
      rw [generate_verification_token, he, hsig]
    · rw [if_neg hc] at hacc
      cases hacc
  · intro tok hsig
    rw [verify_token, if_neg]
    intro hc
    exact hsig hc.1

/-- Witness for C5: a concrete round trip at issuance time 100 checked at
time 3000, and a rejection of an altered-payload token. -/
theorem c5_witness :
    verify_token ("k".toList)
      (generate_verification_token ("k".toList) ("a@b.c".toList) 100) 3000 =
      some ("a@b.c".toList) ∧
    verify_token ("k".toList)
      ⟨"evil@b.c".toList, 100,
        ("k".toList, emailVerificationSalt, "a@b.c".toList, 100)⟩ 3000 =
      none :=
  ⟨(c5_verification_token_round_trip ("k".toList) ("a@b.c".toList) 100 3000).1
      (by decide),
   (c5_verification_token_round_trip ("k".toList) ("a@b.c".toList) 100
      3000).2.2.2
      ⟨"evil@b.c".toList, 100,
        ("k".toList, emailVerificationSalt, "a@b.c".toList, 100)⟩ (by decide)⟩

/-- Filtering away a user's rows is invariant under a rewrite that only
touches that user's rows and preserves ownership. -/
theorem filter_map_other_users (l : List Milk) (f : Milk → Milk) (uid : Nat)
    (hfix : ∀ m, m.user_id ≠ uid → f m = m)
    (hown : ∀ m, (f m).user_id = m.user_id) :
    (l.map f).filter (fun m => m.user_id != uid) =
      l.filter (fun m => m.user_id != uid) := by
  induction l with
  | nil => rfl
  | cons m rest ih =>
    simp only [List.map_cons, List.filter_cons]
    by_cases hm : m.user_id = uid
    · have hfm : (f m).user_id = uid := by rw [hown, hm]
      simp [hfm, hm, ih]
    · rw [hfix m hm, ih]

/-- C1: a page-settings POST with a positive price different from the old
one and recalculation opted in leaves every one of the caller's rows with
`cost = milk_qty × new_price`, and leaves the sequence of every other
user's rows unchanged in all fields. -/
theorem c1_settings_recalculation (st : AppState) (uid : Nat) (user : User)
    (p : ℚ) (c s : Str) (hu : getUser st uid = some user) (hp : 0 < p)
    (hne : user.milk_price_per_litre ≠ p) :
    (∀ m ∈ (settings_post st uid (some p) c s true).1.milks,
        m.user_id = uid → m.cost = m.milk_qty * p) ∧
    (settings_post st uid (some p) c s true).1.milks.filter
        (fun m => m.user_id != uid) =
      st.milks.filter (fun m => m.user_id != uid) ∧
    (settings_post st uid (some p) c s true).2 =
      .savedRecalc (milksOfUser st uid).length := by
  have hresult : settings_post st uid (some p) c s true =
      ({ updateUser st uid (settingsUpdate p c s) with
          milks := st.milks.map (fun m =>
            if m.user_id = uid then { m with cost := m.milk_qty * p } else m) },
        .savedRecalc (milksOfUser st uid).length) := by
    rw [settings_post]
    simp only [hu]
    rw [if_neg (not_le.mpr hp), if_pos ⟨trivial, hne⟩]
    rfl
  rw [hresult]
  refine ⟨?_, ?_, rfl⟩
  · intro m hm hmu
    simp only [List.mem_map] at hm
    obtain ⟨m0, _, hm0⟩ := hm
    by_cases h0 : m0.user_id = uid
    · rw [← hm0]
      simp [h0]
    · rw [if_neg h0] at hm0
      rw [← hm0] at hmu
      exact absurd hmu h0
  · exact filter_map_other_users st.milks _ uid
      (fun m hm => if_neg hm)
      (fun m => by by_cases h : m.user_id = uid <;> simp [h])

/-- Witness for C1: price changes from 50 to 60 for user 1; user 1's row is
recalculated, user 2's row survives untouched. -/
theorem c1_witness :
    (⟨1, "01-02-2024".toList, 2, 2 * 60, "02-2024".toList, 1⟩ : Milk).cost =
      (⟨1, "01-02-2024".toList, 2, 2 * 60, "02-2024".toList, 1⟩ :
        Milk).milk_qty * 60 ∧
    (settings_post
        ⟨[⟨1, "a".toList, 50, "INR".toList, "R".toList, none⟩,
          ⟨2, "b".toList, 50, "INR".toList, "R".toList, none⟩],
         [⟨1, "01-02-2024".toList, 2, 100, "02-2024".toList, 1⟩,
          ⟨2, "01-02-2024".toList, 3, 150, "02-2024".toList, 2⟩], 3⟩
        1 (some 60) ("INR".toList) ("R".toList) true).1.milks.filter
        (fun m => m.user_id != 1) =
      [⟨2, "01-02-2024".toList, 3, 150, "02-2024".toList, 2⟩] := by
  have h := c1_settings_recalculation
    ⟨[⟨1, "a".toList, 50, "INR".toList, "R".toList, none⟩,
      ⟨2, "b".toList, 50, "INR".toList, "R".toList, none⟩],
     [⟨1, "01-02-2024".toList, 2, 100, "02-2024".toList, 1⟩,
      ⟨2, "01-02-2024".toList, 3, 150, "02-2024".toList, 2⟩], 3⟩
    1 ⟨1, "a".toList, 50, "INR".toList, "R".toList, none⟩ 60
    ("INR".toList) ("R".toList) (by rfl) (by norm_num) (by norm_num)
  refine ⟨h.1 ⟨1, "01-02-2024".toList, 2, 2 * 60, "02-2024".toList, 1⟩
    ?_ rfl, h.2.1.trans (by rfl)⟩
  exact List.mem_cons_self _ _

/-- C2: an add request (page POST or API POST) that creates a record with a
numeric quantity gives it `cost = quantity × caller's current
milk_price_per_litre` and, when the date field is absent, the current
day's `DD-MM-YYYY` as date and `MM-YYYY` as month_year. -/
theorem c2_add_cost_and_date_defaults (st : AppState) (uid : Nat)
    (user : User) (q : ℚ) (df : DateField) (now : Date) (st' : AppState)
    (r : Milk) (hu : getUser st uid = some user) :
    (add_post st uid (some q) df now = (st', .added r) →
      r.cost = q * user.milk_price_per_litre ∧ r.milk_qty = q ∧
      (df = .absent →
        r.date = formatDDMMYYYY now ∧ r.month_year = formatMMYYYY now)) ∧
    (api_add_milk_record st uid (.num q) df now = (st', .added r) →
      r.cost = q * user.milk_price_per_litre ∧ r.milk_qty = q ∧
      (df = .absent →
        r.date = formatDDMMYYYY now ∧ r.month_year = formatMMYYYY now)) := by
  constructor
  · intro heq
    rw [add_post] at heq
    simp only [hu] at heq
    cases hfind : scalar_one_or_none (fun m =>
        m.date == formatDDMMYYYY (resolvedDate df now) && m.user_id == uid)
        st.milks with
    | error e =>
      rw [hfind] at heq
      injection heq with h1 h2
      exact AddResult.noConfusion h2
    | ok o =>
      cases o with
      | some m0 =>
        rw [hfind] at heq
        injection heq with h1 h2
        exact AddResult.noConfusion h2
      | none =>
        rw [hfind] at heq
        injection heq with h1 h2
        injection h2 with h3
        have hprice : priceOf st uid = user.milk_price_per_litre := by
          rw [priceOf, hu]
        have hr : r = ⟨st.nextMilkId, formatDDMMYYYY (resolvedDate df now), q,
            q * priceOf st uid, formatMMYYYY (resolvedDate df now),
            uid⟩ := h3.symm
        refine ⟨by rw [hr, hprice], by rw [hr], fun habs => ?_⟩
        rw [hr, habs]
        exact ⟨rfl, rfl⟩
  · intro heq
    rw [api_add_milk_record] at heq
    simp only [hu] at heq
    have htruthy : (QtyField.num q).truthy = true := by
      by_cases h0 : (QtyField.num q).truthy = true
      · exact h0
      · -- a falsy quantity would have been answered `.qtyRequired`,
        -- contradicting the created-record hypothesis
        rw [if_pos h0] at heq
        injection heq with h1 h2
        exact ApiAddResult.noConfusion h2
    rw [if_neg (not_not_intro htruthy)] at heq
    simp only [QtyField.toFloat] at heq
    cases hfind : scalar_one_or_none (fun m =>
        m.date == formatDDMMYYYY (resolvedDate df now) && m.user_id == uid)
        st.milks with
    | error e =>
      rw [hfind] at heq
      injection heq with h1 h2
      exact ApiAddResult.noConfusion h2
    | ok o =>
      cases o with
      | some m0 =>
        rw [hfind] at heq
        injection heq with h1 h2
        exact ApiAddResult.noConfusion h2
      | none =>
        rw [hfind] at heq
        injection heq with h1 h2
        injection h2 with h3
        have hr : r = ⟨st.nextMilkId, formatDDMMYYYY (resolvedDate df now), q,
            q * user.milk_price_per_litre, formatMMYYYY (resolvedDate df now),
            uid⟩ := h3.symm
        refine ⟨by rw [hr], by rw [hr], fun habs => ?_⟩
        rw [hr, habs]
        exact ⟨rfl, rfl⟩

/-- Witness for C2: quantity 10 at price 50 on an empty record set with no
date field: cost 500, today's formats stored. -/
theorem c2_witness :
    (⟨1, formatDDMMYYYY ⟨11, 10, 2025⟩, 10, 10 * 50,
        formatMMYYYY ⟨11, 10, 2025⟩, 1⟩ : Milk).cost =
      10 * (⟨1, "a".toList, 50, "INR".toList, "R".toList, none⟩ :
        User).milk_price_per_litre ∧
    (⟨1, formatDDMMYYYY ⟨11, 10, 2025⟩, 10, 10 * 50,
        formatMMYYYY ⟨11, 10, 2025⟩, 1⟩ : Milk).date =
      formatDDMMYYYY ⟨11, 10, 2025⟩ ∧
    (⟨1, formatDDMMYYYY ⟨11, 10, 2025⟩, 10, 10 * 50,
        formatMMYYYY ⟨11, 10, 2025⟩, 1⟩ : Milk).month_year =
      formatMMYYYY ⟨11, 10, 2025⟩ ∧
    (10 : ℚ) * 50 = 500 := by
  have h := (c2_add_cost_and_date_defaults
      ⟨[⟨1, "a".toList, 50, "INR".toList, "R".toList, none⟩], [], 1⟩ 1
      ⟨1, "a".toList, 50, "INR".toList, "R".toList, none⟩ 10 .absent
      ⟨11, 10, 2025⟩
      ⟨[⟨1, "a".toList, 50, "INR".toList, "R".toList, none⟩],
        [⟨1, formatDDMMYYYY ⟨11, 10, 2025⟩, 10, 10 * 50,
          formatMMYYYY ⟨11, 10, 2025⟩, 1⟩], 2⟩
      ⟨1, formatDDMMYYYY ⟨11, 10, 2025⟩, 10, 10 * 50,
        formatMMYYYY ⟨11, 10, 2025⟩, 1⟩ (by rfl)).1 (by rfl)
  exact ⟨h.1, (h.2.2 rfl).1, (h.2.2 rfl).2, by norm_num⟩

/-- C3 counterexample: with two stored rows for the same (user, date) pair
— a state the edit flows can produce, since they rewrite dates without
re-checking uniqueness — a further add attempt for that date makes
`scalar_one_or_none()` raise `MultipleResultsFound` (HTTP 500) on both
routes instead of the conflict flash / 409 the claim asserts. -/
theorem c3_counterexample :
    add_post
      ⟨[⟨1, "a".toList, 50, "INR".toList, "R".toList, none⟩],
        [⟨1, formatDDMMYYYY ⟨11, 10, 2025⟩, 10, 500,
          formatMMYYYY ⟨11, 10, 2025⟩, 1⟩,
         ⟨2, formatDDMMYYYY ⟨11, 10, 2025⟩, 9, 450,
          formatMMYYYY ⟨11, 10, 2025⟩, 1⟩], 3⟩ 1 (some 4) .absent
      ⟨11, 10, 2025⟩ =
      (⟨[⟨1, "a".toList, 50, "INR".toList, "R".toList, none⟩],
        [⟨1, formatDDMMYYYY ⟨11, 10, 2025⟩, 10, 500,
          formatMMYYYY ⟨11, 10, 2025⟩, 1⟩,
         ⟨2, formatDDMMYYYY ⟨11, 10, 2025⟩, 9, 450,
          formatMMYYYY ⟨11, 10, 2025⟩, 1⟩], 3⟩,
        .multipleResults) ∧
    api_add_milk_record
      ⟨[⟨1, "a".toList, 50, "INR".toList, "R".toList, none⟩],
        [⟨1, formatDDMMYYYY ⟨11, 10, 2025⟩, 10, 500,
          formatMMYYYY ⟨11, 10, 2025⟩, 1⟩,
         ⟨2, formatDDMMYYYY ⟨11, 10, 2025⟩, 9, 450,
          formatMMYYYY ⟨11, 10, 2025⟩, 1⟩], 3⟩ 1 (.num 4) .absent
      ⟨11, 10, 2025⟩ =
      (⟨[⟨1, "a".toList, 50, "INR".toList, "R".toList, none⟩],
        [⟨1, formatDDMMYYYY ⟨11, 10, 2025⟩, 10, 500,
          formatMMYYYY ⟨11, 10, 2025⟩, 1⟩,
         ⟨2, formatDDMMYYYY ⟨11, 10, 2025⟩, 9, 450,
          formatMMYYYY ⟨11, 10, 2025⟩, 1⟩], 3⟩,
        .multipleResults) ∧
    AddResult.multipleResults ≠
      .duplicate (formatDDMMYYYY (resolvedDate .absent ⟨11, 10, 2025⟩)) ∧
    ApiAddResult.status .multipleResults ≠ 409 :=
  ⟨rfl, rfl, by decide, by decide⟩

/-- C3 (amended): when exactly one row for the caller and the resolved date
already exists, both add routes reject the second attempt as a conflict
(flash on the page route, HTTP 409 on the API route) and leave the state —
in particular the existing row — entirely unchanged; when several such rows
already exist (reachable because the edit flows rewrite dates without
re-checking uniqueness), the duplicate lookup instead raises
`MultipleResultsFound` (HTTP 500) — still inserting nothing and leaving the
state unchanged. -/
theorem c3_duplicate_add_rejected (st : AppState) (uid : Nat) (user : User)
    (q : ℚ) (df : DateField) (now : Date)
    (hu : getUser st uid = some user) (hq : q ≠ 0) :
    (∀ m, st.milks.filter (fun x =>
        x.date == formatDDMMYYYY (resolvedDate df now) && x.user_id == uid) =
        [m] →
      add_post st uid (some q) df now =
        (st, .duplicate (formatDDMMYYYY (resolvedDate df now))) ∧
      api_add_milk_record st uid (.num q) df now =
        (st, .conflict (formatDDMMYYYY (resolvedDate df now))) ∧
      ApiAddResult.status
        (.conflict (formatDDMMYYYY (resolvedDate df now))) = 409) ∧
    (2 ≤ (st.milks.filter (fun x =>
        x.date == formatDDMMYYYY (resolvedDate df now) && x.user_id == uid)).length →
      add_post st uid (some q) df now = (st, .multipleResults) ∧
      api_add_milk_record st uid (.num q) df now = (st, .multipleResults) ∧
      ApiAddResult.status .multipleResults = 500) := by
  have htruthy : (QtyField.num q).truthy = true := by
    simp [QtyField.truthy, hq]
  constructor
  · intro m hf
    have hs : scalar_one_or_none (fun x =>
        x.date == formatDDMMYYYY (resolvedDate df now) && x.user_id == uid)
        st.milks = Except.ok (some m) := by
      rw [scalar_one_or_none, hf]
    refine ⟨?_, ?_, rfl⟩
    · rw [add_post]
      simp only [hu, hs]
    · rw [api_add_milk_record]
      simp only [hu]
      rw [if_neg (not_not_intro htruthy)]
      simp only [QtyField.toFloat, hs]
  · intro hlen
    have hs : scalar_one_or_none (fun x =>
        x.date == formatDDMMYYYY (resolvedDate df now) && x.user_id == uid)
        st.milks = Except.error () := by
      rw [scalar_one_or_none]
      cases hf : st.milks.filter (fun x =>
          x.date == formatDDMMYYYY (resolvedDate df now) && x.user_id == uid) with
      | nil =>
        rw [hf] at hlen
        simp at hlen
      | cons a t =>
        cases t with
        | nil =>
          rw [hf] at hlen
          simp at hlen
        | cons b r2 => rfl
    refine ⟨?_, ?_, rfl⟩
    · rw [add_post]
      simp only [hu, hs]
    · rw [api_add_milk_record]
      simp only [hu]
      rw [if_neg (not_not_intro htruthy)]
      simp only [QtyField.toFloat, hs]

/-- Witness for C3 (amended): a second add for user 1 on 11-10-2025, with
exactly one stored row for that date, is refused by both routes with the
state unchanged. -/
theorem c3_witness :
    add_post
      ⟨[⟨1, "a".toList, 50, "INR".toList, "R".toList, none⟩],
        [⟨1, formatDDMMYYYY ⟨11, 10, 2025⟩, 10, 500,
          formatMMYYYY ⟨11, 10, 2025⟩, 1⟩], 2⟩ 1 (some 4) .absent
      ⟨11, 10, 2025⟩ =
      (⟨[⟨1, "a".toList, 50, "INR".toList, "R".toList, none⟩],
        [⟨1, formatDDMMYYYY ⟨11, 10, 2025⟩, 10, 500,
          formatMMYYYY ⟨11, 10, 2025⟩, 1⟩], 2⟩,
        .duplicate (formatDDMMYYYY (resolvedDate .absent ⟨11, 10, 2025⟩))) ∧
    api_add_milk_record
      ⟨[⟨1, "a".toList, 50, "INR".toList, "R".toList, none⟩],
        [⟨1, formatDDMMYYYY ⟨11, 10, 2025⟩, 10, 500,
          formatMMYYYY ⟨11, 10, 2025⟩, 1⟩], 2⟩ 1 (.num 4) .absent
      ⟨11, 10, 2025⟩ =
      (⟨[⟨1, "a".toList, 50, "INR".toList, "R".toList, none⟩],
        [⟨1, formatDDMMYYYY ⟨11, 10, 2025⟩, 10, 500,
          formatMMYYYY ⟨11, 10, 2025⟩, 1⟩], 2⟩,
        .conflict (formatDDMMYYYY (resolvedDate .absent ⟨11, 10, 2025⟩))) := by
  have h := (c3_duplicate_add_rejected
    ⟨[⟨1, "a".toList, 50, "INR".toList, "R".toList, none⟩],
      [⟨1, formatDDMMYYYY ⟨11, 10, 2025⟩, 10, 500,
        formatMMYYYY ⟨11, 10, 2025⟩, 1⟩], 2⟩ 1
    ⟨1, "a".toList, 50, "INR".toList, "R".toList, none⟩ 4 .absent
    ⟨11, 10, 2025⟩ (by rfl) (by norm_num)).1
    ⟨1, formatDDMMYYYY ⟨11, 10, 2025⟩, 10, 500,
      formatMMYYYY ⟨11, 10, 2025⟩, 1⟩ (by rfl)
  exact ⟨h.1, h.2.1⟩

/-- C6: a token whose decoded payload has type `'refresh'` is rejected by
the access-only route guard with HTTP 401 before any handler runs; the
refresh endpoint answers 401 whenever the presented token does not decode
as type `'refresh'` or does not equal the refresh token stored on its
user's row, and issues a new access token exactly when both conditions
hold. -/
theorem c6_refresh_token_rules :
    ∀ (key : Str) (now : Nat) (st : AppState) (tok : JwtToken),
      (∀ p, decode_token key now tok = some p →
        p.typ = "refresh".toList →
        ∀ handler, run_guarded key now st (some tok) handler = (st, 401)) ∧
      ((∀ p, decode_token key now tok = some p → p.typ ≠ "refresh".toList) →
        (api_refresh_token key now st (some tok)).status = 401) ∧
      (∀ p u, decode_token key now tok = some p →
        p.typ = "refresh".toList →
        getUser st p.user_id = some u →
        u.refresh_token ≠ some tok →
        (api_refresh_token key now st (some tok)).status = 401) ∧
      (∀ p u, decode_token key now tok = some p →
        p.typ = "refresh".toList →
        getUser st p.user_id = some u →
        u.refresh_token = some tok →
        api_refresh_token key now st (some tok) =
          .ok (generate_access_token key u.id u.email now)) ∧
      (∀ t', api_refresh_token key now st (some tok) = .ok t' →
        ∃ p u, decode_token key now tok = some p ∧
          p.typ = "refresh".toList ∧
          getUser st p.user_id = some u ∧
          u.refresh_token = some tok ∧
          t' = generate_access_token key u.id u.email now) := by
  intro key now st tok
  have haccess : ¬ ("refresh".toList = "access".toList) := by decide
  refine ⟨?_, ?_, ?_, ?_, ?_⟩
  · intro p hdec htyp handler
    rw [run_guarded, token_required_check]
    simp only [hdec]
    rw [htyp, if_neg haccess]
  · intro hnot
    rw [api_refresh_token]
    cases hdec : decode_token key now tok with
    | none => rfl
    | some p =>
      simp only
      rw [if_neg (hnot p hdec)]
      rfl
  · intro p u hdec htyp hu hne
    rw [api_refresh_token]
    simp only [hdec]
    rw [if_pos htyp]
    simp only [hu]
    rw [if_neg hne]
    rfl
  · intro p u hdec htyp hu hstored
    rw [api_refresh_token]
    simp only [hdec]
    rw [if_pos htyp]
    simp only [hu]
    rw [if_pos hstored]
  · intro t' hok
    rw [api_refresh_token] at hok
    cases hdec : decode_token key now tok with
    | none => rw [hdec] at hok; cases hok
    | some p =>
      rw [hdec] at hok
      simp only at hok
      by_cases htyp : p.typ = "refresh".toList
      · rw [if_pos htyp] at hok
        cases hu : getUser st p.user_id with
        | none => rw [hu] at hok; cases hok
        | some u =>
          rw [hu] at hok
          simp only at hok
          by_cases hstored : u.refresh_token = some tok
          · rw [if_pos hstored] at hok
            refine ⟨p, u, rfl, htyp, hu, hstored, ?_⟩
            exact ((RefreshResult.ok.injEq _ _).mp hok).symm
          · rw [if_neg hstored] at hok
            cases hok
      · rw [if_neg htyp] at hok
        cases hok

/-- Witness for C6: a freshly issued refresh token for user 1 is rejected
by the access guard, and accepted by the refresh endpoint since it matches
the stored value. -/
theorem c6_witness :
    run_guarded ("k".toList) 5
      ⟨[⟨1, "e".toList, 50, "INR".toList, "R".toList,
          some (generate_refresh_token ("k".toList) 1 ("e".toList) 0)⟩], [], 1⟩
      (some (generate_refresh_token ("k".toList) 1 ("e".toList) 0))
      (fun _ s => (s, 200)) =
      (⟨[⟨1, "e".toList, 50, "INR".toList, "R".toList,
          some (generate_refresh_token ("k".toList) 1 ("e".toList) 0)⟩], [], 1⟩,
        401) ∧
    api_refresh_token ("k".toList) 5
      ⟨[⟨1, "e".toList, 50, "INR".toList, "R".toList,
          some (generate_refresh_token ("k".toList) 1 ("e".toList) 0)⟩], [], 1⟩
      (some (generate_refresh_token ("k".toList) 1 ("e".toList) 0)) =
      .ok (generate_access_token ("k".toList) 1 ("e".toList) 5) :=
  ⟨(c6_refresh_token_rules ("k".toList) 5
      ⟨[⟨1, "e".toList, 50, "INR".toList, "R".toList,
          some (generate_refresh_token ("k".toList) 1 ("e".toList) 0)⟩], [], 1⟩
      (generate_refresh_token ("k".toList) 1 ("e".toList) 0)).1
      ⟨1, "e".toList, 0, 30 * 86400, "refresh".toList⟩ (by decide) (by decide)
      (fun _ s => (s, 200)),
   (c6_refresh_token_rules ("k".toList) 5
      ⟨[⟨1, "e".toList, 50, "INR".toList, "R".toList,
          some (generate_refresh_token ("k".toList) 1 ("e".toList) 0)⟩], [], 1⟩
      (generate_refresh_token ("k".toList) 1 ("e".toList) 0)).2.2.2.1
      ⟨1, "e".toList, 0, 30 * 86400, "refresh".toList⟩
      ⟨1, "e".toList, 50, "INR".toList, "R".toList,
        some (generate_refresh_token ("k".toList) 1 ("e".toList) 0)⟩
      (by decide) (by decide) (by decide) (by decide)⟩

/-! ### The data-model invariant (C9) -/

/-- Every stored row's cost agrees with its quantity times its owner's
current price-per-litre. -/
def CostInvariant (st : AppState) : Prop :=
  ∀ m ∈ st.milks, ∀ u, getUser st m.user_id = some u →
    m.cost = m.milk_qty * u.milk_price_per_litre

/-- Every stored row's `month_year` is the `MM-YYYY` extraction of its
`date`. -/
def MonthYearInvariant (st : AppState) : Prop :=
  ∀ m ∈ st.milks, get_month_year m.date = some m.month_year

/-- The spec's data-model invariant. -/
def DataModelInvariant (st : AppState) : Prop :=
  CostInvariant st ∧ MonthYearInvariant st

theorem getUser_updateUser_some {st : AppState} {uid v : Nat}
    {f : User → User} {u0 : User} (hid : ∀ u, (f u).id = u.id)
    (hg : getUser st v = some u0) :
    getUser (updateUser st uid f) v =
      some (if u0.id = uid then f u0 else u0) := by
  rw [getUser_updateUser st uid f v hid, hg, Option.map_some']

/-- The page add flow preserves the data-model invariant. -/
theorem add_post_preserves_inv (st : AppState)
    (hinv : DataModelInvariant st) (uid : Nat) (qty : Option ℚ)
    (df : DateField) (now : Date) :
    DataModelInvariant (add_post st uid qty df now).1 := by
  cases qty with
  | none => exact hinv
  | some q =>
    cases hfind : scalar_one_or_none (fun m =>
        m.date == formatDDMMYYYY (resolvedDate df now) && m.user_id == uid)
        st.milks with
    | error e =>
      have hres : (add_post st uid (some q) df now).1 = st := by
        rw [add_post]
        simp only [hfind]
      rw [hres]
      exact hinv
    | ok o =>
      cases o with
      | some m0 =>
        have hres : (add_post st uid (some q) df now).1 = st := by
          rw [add_post]
          simp only [hfind]
        rw [hres]
        exact hinv
      | none =>
        have hres : (add_post st uid (some q) df now).1 =
            { st with
              milks := st.milks ++
                [⟨st.nextMilkId, formatDDMMYYYY (resolvedDate df now), q,
                  q * priceOf st uid, formatMMYYYY (resolvedDate df now), uid⟩],
              nextMilkId := st.nextMilkId + 1 } := by
          rw [add_post]
          simp only [hfind]
        rw [hres]
        constructor
        · intro m hm u hu
          have hu' : getUser st m.user_id = some u := hu
          rcases List.mem_append.mp hm with hm1 | hm2
          · exact hinv.1 m hm1 u hu'
          · simp only [List.mem_singleton] at hm2
            subst hm2
            simp only at hu' ⊢
            rw [priceOf, hu']
        · intro m hm
          rcases List.mem_append.mp hm with hm1 | hm2
          · exact hinv.2 m hm1
          · simp only [List.mem_singleton] at hm2
            subst hm2
            exact get_month_year_format _

/-- The page edit flow preserves the data-model invariant. -/
theorem edit_post_preserves_inv (st : AppState)
    (hinv : DataModelInvariant st) (uid rid : Nat)
    (date : Option (Option Date)) (qty : Option ℚ) :
    DataModelInvariant (edit_post st uid rid date qty).1 := by
  cases hfind : findMilk st rid uid with
  | none =>
    have hres : (edit_post st uid rid date qty).1 = st := by
      rw [edit_post]
      simp only [hfind]
    rw [hres]
    exact hinv
  | some m0 =>
    obtain ⟨hm0mem, hm0id, hm0uid⟩ := findMilk_spec hfind
    cases qty with
    | none =>
      have hres : (edit_post st uid rid date none).1 = st := by
        rw [edit_post]
        simp only [hfind]
      rw [hres]
      exact hinv
    | some q =>
      have hm1 : ∃ m1 : Milk,
          (edit_post st uid rid date (some q)).1 =
            { st with milks := st.milks.map (fun x =>
                if x.id == rid && x.user_id == uid then
                  { m1 with milk_qty := q, cost := q * priceOf st uid }
                else x) } ∧
          m1.user_id = m0.user_id ∧
          get_month_year m1.date = some m1.month_year := by
        rcases date with _ | od
        · refine ⟨m0, ?_, rfl, hinv.2 m0 hm0mem⟩
          rw [edit_post]
          simp only [hfind]
        · rcases od with _ | d
          · refine ⟨m0, ?_, rfl, hinv.2 m0 hm0mem⟩
            rw [edit_post]
            simp only [hfind]
          · refine ⟨{ m0 with date := formatDDMMYYYY d, month_year := formatMMYYYY d }, ?_, rfl, get_month_year_format d⟩
            rw [edit_post]
            simp only [hfind]
      obtain ⟨m1, hres, hm1uid, hm1my⟩ := hm1
      rw [hres]
      constructor
      · intro m hm u hu
        have hu' : getUser st m.user_id = some u := hu
        simp only [List.mem_map] at hm
        obtain ⟨x, hx, hfx⟩ := hm
        by_cases hc : (x.id == rid && x.user_id == uid) = true
        · rw [if_pos hc] at hfx
          subst hfx
          simp only at hu' ⊢
          rw [hm1uid, hm0uid] at hu'
          rw [priceOf, hu']
        · rw [if_neg hc] at hfx
          subst hfx
          exact hinv.1 x hx u hu'
      · intro m hm
        simp only [List.mem_map] at hm
        obtain ⟨x, hx, hfx⟩ := hm
        by_cases hc : (x.id == rid && x.user_id == uid) = true
        · rw [if_pos hc] at hfx
          subst hfx
          exact hm1my
        · rw [if_neg hc] at hfx
          subst hfx
          exact hinv.2 x hx

/-- The page delete flow preserves the data-model invariant. -/
theorem delete_data_preserves_inv (st : AppState)
    (hinv : DataModelInvariant st) (uid rid : Nat) :
    DataModelInvariant (delete_data st uid rid).1 := by
  cases hfind : findMilk st rid uid with
  | none =>
    have hres : (delete_data st uid rid).1 = st := by
      rw [delete_data]
      simp only [hfind]
    rw [hres]
    exact hinv
  | some m0 =>
    have hres : (delete_data st uid rid).1 =
        { st with milks := st.milks.eraseP (fun m => m.id == rid && m.user_id == uid) } := by
      rw [delete_data]
      simp only [hfind]
    rw [hres]
    constructor
    · intro m hm u hu
      exact hinv.1 m (List.eraseP_subset _ hm) u hu
    · intro m hm
      exact hinv.2 m (List.eraseP_subset _ hm)

/-- The page settings POST with recalculation opted in preserves the
data-model invariant. -/
theorem settings_post_recalc_preserves_inv (st : AppState)
    (hinv : DataModelInvariant st) (uid : Nat) (mp : Option ℚ)
    (c s : Str) :
    DataModelInvariant (settings_post st uid mp c s true).1 := by
  cases hu : getUser st uid with
  | none =>
    have hres : (settings_post st uid mp c s true).1 = st := by
      rw [settings_post]
      simp only [hu]
    rw [hres]
    exact hinv
  | some user =>
    cases mp with
    | none =>
      have hres : (settings_post st uid none c s true).1 = st := by
        rw [settings_post]
        simp only [hu]
      rw [hres]
      exact hinv
    | some p =>
      by_cases hp : p ≤ 0
      · have hres : (settings_post st uid (some p) c s true).1 = st := by
          rw [settings_post]
          simp only [hu]
          rw [if_pos hp]
        rw [hres]
        exact hinv
      · have huid : user.id = uid := getUser_id hu
        have hupdid : ∀ u : User, (settingsUpdate p c s u).id = u.id :=
          fun u => rfl
        by_cases hold : user.milk_price_per_litre = p
        · -- price unchanged: no recalculation, but the stored price is
          -- rewritten to the same value, so the invariant carries over
          have hres : (settings_post st uid (some p) c s true).1 =
              updateUser st uid (settingsUpdate p c s) := by
            rw [settings_post]
            simp only [hu]
            rw [if_neg hp, if_neg (fun hc => hc.2 hold)]
          rw [hres]
          constructor
          · intro m hm u' hu'
            have hm' : m ∈ st.milks := hm
            cases hg : getUser st m.user_id with
            | none =>
              rw [getUser_updateUser st uid (settingsUpdate p c s) m.user_id
                hupdid, hg] at hu'
              cases hu'
            | some u0 =>
              rw [getUser_updateUser_some hupdid hg] at hu'
              have hu0 : u' = if u0.id = uid then settingsUpdate p c s u0
                  else u0 := (Option.some.inj hu').symm
              by_cases hid : u0.id = uid
              · have hvu : m.user_id = uid := (getUser_id hg).symm.trans hid
                have hu0user : u0 = user := by
                  rw [hvu] at hg
                  rw [hg] at hu
                  exact Option.some.inj hu
                rw [hu0, if_pos hid, hu0user]
                show m.cost = m.milk_qty * p
                rw [← hold]
                exact hinv.1 m hm' user (hu0user ▸ hg)
              · rw [hu0, if_neg hid]
                exact hinv.1 m hm' u0 hg
          · intro m hm
            exact hinv.2 m hm
        · -- price changed: every one of the caller's rows is recomputed
          have hres : (settings_post st uid (some p) c s true).1 =
              { updateUser st uid (settingsUpdate p c s) with
                milks := st.milks.map (fun m =>
                  if m.user_id = uid then { m with cost := m.milk_qty * p } else m) } := by
            rw [settings_post]
            simp only [hu]
            rw [if_neg hp, if_pos ⟨trivial, hold⟩]
            rfl
          rw [hres]
          constructor
          · intro m hm u' hu'
            simp only [List.mem_map] at hm
            obtain ⟨x, hx, hfx⟩ := hm
            have hu'' : getUser (updateUser st uid (settingsUpdate p c s))
                m.user_id = some u' := hu'
            by_cases hxu : x.user_id = uid
            · rw [if_pos hxu] at hfx
              subst hfx
              simp only at hu'' ⊢
              rw [hxu] at hu''
              rw [getUser_updateUser_some hupdid hu] at hu''
              have hu'eq : u' = settingsUpdate p c s user := by
                rw [if_pos huid] at hu''
                exact (Option.some.inj hu'').symm
              rw [hu'eq]
              show x.milk_qty * p = x.milk_qty * p
              rfl
            · rw [if_neg hxu] at hfx
              subst hfx
              cases hg : getUser st x.user_id with
              | none =>
                rw [getUser_updateUser st uid (settingsUpdate p c s) x.user_id
                  hupdid, hg] at hu''
                cases hu''
              | some u0 =>
                rw [getUser_updateUser_some hupdid hg] at hu''
                have hid : ¬ (u0.id = uid) := by
                  rw [getUser_id hg]
                  exact hxu
                rw [if_neg hid] at hu''
                rw [← Option.some.inj hu'']
                exact hinv.1 x hx u0 hg
          · intro m hm
            simp only [List.mem_map] at hm
            obtain ⟨x, hx, hfx⟩ := hm
            by_cases hxu : x.user_id = uid
            · rw [if_pos hxu] at hfx
              subst hfx
              exact hinv.2 x hx
            · rw [if_neg hxu] at hfx
              subst hfx
              exact hinv.2 x hx

/-- A page settings POST with recalculation declined never touches milk
rows. -/
theorem settings_post_norecalc_milks (st : AppState) (uid : Nat)
    (mp : Option ℚ) (c s : Str) :
    (settings_post st uid mp c s false).1.milks = st.milks := by
  cases hu : getUser st uid with
  | none => simp [settings_post, hu]
  | some user =>
    cases mp with
    | none => simp [settings_post, hu]
    | some p =>
      by_cases hp : p ≤ 0
      · simp [settings_post, hu, hp]
      · simp [settings_post, hu, hp, updateUser]

/-- A page settings POST with recalculation declined preserves the
month-year half of the data-model invariant (its cost half is what a price
change can break). -/
theorem settings_post_norecalc_preserves_my (st : AppState)
    (hinv : MonthYearInvariant st) (uid : Nat) (mp : Option ℚ) (c s : Str) :
    MonthYearInvariant (settings_post st uid mp c s false).1 := by
  intro m hm
  rw [settings_post_norecalc_milks] at hm
  exact hinv m hm

/-- The API settings PUT never touches milk rows. -/
theorem api_user_settings_put_milks (st : AppState) (uid : Nat)
    (price : Option (Option ℚ)) (c s : Option Str) :
    (api_user_settings_put st uid price c s).1.milks = st.milks := by
  cases hu : getUser st uid with
  | none => simp [api_user_settings_put, hu]
  | some u =>
    cases price with
    | none =>
      cases c <;> cases s <;>
        simp [api_user_settings_put, hu, updateUser]
    | some o =>
      cases o with
      | none => simp [api_user_settings_put, hu]
      | some p =>
        by_cases hp : p ≤ 0
        · simp [api_user_settings_put, hu, hp]
        · cases c <;> cases s <;>
            simp [api_user_settings_put, hu, hp, updateUser]

/-- The API settings PUT preserves the month-year half of the data-model
invariant (its cost half is what the PUT can break). -/
theorem api_user_settings_put_preserves_my (st : AppState)
    (hinv : MonthYearInvariant st) (uid : Nat) (price : Option (Option ℚ))
    (c s : Option Str) :
    MonthYearInvariant (api_user_settings_put st uid price c s).1 := by
  intro m hm
  rw [api_user_settings_put_milks] at hm
  exact hinv m hm

/-- C9 counterexample: on a state satisfying the data-model invariant
(price 50, one row of quantity 1 and cost 50), an API settings PUT raising
the price to 60 — and likewise a page settings POST to 60 with
recalculation declined — leaves the row's cost at 50 ≠ 1 × 60, so the
invariant does not hold after every listed operation. -/
theorem c9_counterexample :
    DataModelInvariant
      ⟨[⟨7, "u".toList, 50, "INR".toList, "R".toList, none⟩],
       [⟨1, "05-03-2024".toList, 1, 50, "03-2024".toList, 7⟩], 2⟩ ∧
    ¬ CostInvariant (api_user_settings_put
        ⟨[⟨7, "u".toList, 50, "INR".toList, "R".toList, none⟩],
         [⟨1, "05-03-2024".toList, 1, 50, "03-2024".toList, 7⟩], 2⟩
        7 (some (some 60)) none none).1 ∧
    ¬ CostInvariant (settings_post
        ⟨[⟨7, "u".toList, 50, "INR".toList, "R".toList, none⟩],
         [⟨1, "05-03-2024".toList, 1, 50, "03-2024".toList, 7⟩], 2⟩
        7 (some 60) ("INR".toList) ("R".toList) false).1 := by
  refine ⟨?_, ?_, ?_⟩
  · constructor
    · intro m hm u hu
      simp only [List.mem_singleton] at hm
      subst hm
      have hu' : some (⟨7, "u".toList, 50, "INR".toList, "R".toList, none⟩ :
          User) = some u := by
        rw [← hu]
        rfl
      rw [← Option.some.inj hu']
      norm_num
    · intro m hm
      simp only [List.mem_singleton] at hm
      subst hm
      decide
  · intro h
    have hput : (api_user_settings_put
        ⟨[⟨7, "u".toList, 50, "INR".toList, "R".toList, none⟩],
         [⟨1, "05-03-2024".toList, 1, 50, "03-2024".toList, 7⟩], 2⟩
        7 (some (some 60)) none none).1 =
        ⟨[⟨7, "u".toList, 60, "INR".toList, "R".toList, none⟩],
         [⟨1, "05-03-2024".toList, 1, 50, "03-2024".toList, 7⟩], 2⟩ := by
      rw [api_user_settings_put]
      norm_num [getUser, updateUser]
    rw [hput] at h
    have := h ⟨1, "05-03-2024".toList, 1, 50, "03-2024".toList, 7⟩
      (by simp) ⟨7, "u".toList, 60, "INR".toList, "R".toList, none⟩ (by rfl)
    norm_num at this
  · intro h
    have hpost : (settings_post
        ⟨[⟨7, "u".toList, 50, "INR".toList, "R".toList, none⟩],
         [⟨1, "05-03-2024".toList, 1, 50, "03-2024".toList, 7⟩], 2⟩
        7 (some 60) ("INR".toList) ("R".toList) false).1 =
        ⟨[⟨7, "u".toList, 60, "INR".toList, "R".toList, none⟩],
         [⟨1, "05-03-2024".toList, 1, 50, "03-2024".toList, 7⟩], 2⟩ := by
      rw [settings_post]
      norm_num [getUser, updateUser, settingsUpdate]
    rw [hpost] at h
    have := h ⟨1, "05-03-2024".toList, 1, 50, "03-2024".toList, 7⟩
      (by simp) ⟨7, "u".toList, 60, "INR".toList, "R".toList, none⟩ (by rfl)
    norm_num at this

/-- C9 (amended): the data-model invariant (`cost = milk_qty × owner's
current price` and `month_year` matching `date`) is preserved by the add,
edit and delete flows and by a page settings POST with recalculation opted
in; a page settings POST with recalculation declined and the API settings
PUT (neither of which rewrites stored costs) preserve the month-year half —
their cost half can break, as the counterexample shows. -/
theorem c9_invariant_preservation (st : AppState)
    (hinv : DataModelInvariant st) :
    (∀ uid qty df now, DataModelInvariant (add_post st uid qty df now).1) ∧
    (∀ uid rid date qty,
      DataModelInvariant (edit_post st uid rid date qty).1) ∧
    (∀ uid rid, DataModelInvariant (delete_data st uid rid).1) ∧
    (∀ uid mp c s, DataModelInvariant (settings_post st uid mp c s true).1) ∧
    (∀ uid mp c s,
      MonthYearInvariant (settings_post st uid mp c s false).1) ∧
    (∀ uid price c s,
      MonthYearInvariant (api_user_settings_put st uid price c s).1) :=
  ⟨fun uid qty df now => add_post_preserves_inv st hinv uid qty df now,
   fun uid rid date qty => edit_post_preserves_inv st hinv uid rid date qty,
   fun uid rid => delete_data_preserves_inv st hinv uid rid,
   fun uid mp c s => settings_post_recalc_preserves_inv st hinv uid mp c s,
   fun uid mp c s =>
     settings_post_norecalc_preserves_my st hinv.2 uid mp c s,
   fun uid price c s =>
     api_user_settings_put_preserves_my st hinv.2 uid price c s⟩

/-- Witness for C9 (amended): the empty state satisfies the invariant and
keeps it across a concrete delete. -/
theorem c9_witness :
    DataModelInvariant ⟨[], [], 0⟩ ∧
    DataModelInvariant (delete_data ⟨[], [], 0⟩ 5 3).1 := by
  have hinv : DataModelInvariant (⟨[], [], 0⟩ : AppState) := by
    constructor
    · intro m hm u hu
      cases hm
    · intro m hm
      cases hm
  exact ⟨hinv, (c9_invariant_preservation ⟨[], [], 0⟩ hinv).2.2.1 5 3⟩

/-- C10: a POST to `/api/milk/records` whose `milk_qty` field is falsy —
the number 0, the empty string, null, or absent — is answered with HTTP 400
and the message `'Milk quantity required'`, exactly as when the field is
missing, and no row is inserted (even though `0` parses as a number). -/
theorem c10_api_add_falsy_qty_rejected :
    ∀ (st : AppState) (uid : Nat) (user : User) (v : QtyField)
      (df : DateField) (now : Date),
      getUser st uid = some user →
      v.truthy = false →
      api_add_milk_record st uid v df now = (st, .qtyRequired) ∧
      ApiAddResult.status .qtyRequired = 400 ∧
      ApiAddResult.message .qtyRequired = "Milk quantity required".toList ∧
      QtyField.truthy (.num 0) = false ∧
      (∀ pf, QtyField.truthy (.str [] pf) = false) ∧
      QtyField.truthy .null = false ∧
      QtyField.truthy .absent = false ∧
      QtyField.toFloat (.num 0) = some 0 := by
  intro st uid user v df now hu hfalsy
  refine ⟨?_, rfl, rfl, by decide, fun pf => rfl, rfl, rfl, rfl⟩
  rw [api_add_milk_record, hu]
  simp [hfalsy]

/-- Witness for C10: quantity 0 on a concrete one-user state. -/
theorem c10_witness :
    api_add_milk_record
      ⟨[⟨1, "a".toList, 50, "INR".toList, "R".toList, none⟩], [], 1⟩ 1
      (.num 0) .absent ⟨11, 10, 2025⟩ =
      (⟨[⟨1, "a".toList, 50, "INR".toList, "R".toList, none⟩], [], 1⟩,
        .qtyRequired) ∧
    ApiAddResult.status .qtyRequired = 400 :=
  ⟨(c10_api_add_falsy_qty_rejected
      ⟨[⟨1, "a".toList, 50, "INR".toList, "R".toList, none⟩], [], 1⟩ 1
      ⟨1, "a".toList, 50, "INR".toList, "R".toList, none⟩ (.num 0) .absent
      ⟨11, 10, 2025⟩ (by rfl) (by decide)).1,
   rfl⟩

end MilkCalc
